import Mathlib

/-!
Shallow embedding of the order placement and inventory subsystem of the
weldmart backend (Go + Fiber + GORM + SQLite).

Sources embedded here:
* `src/models/product.go`   — the `Product` row (stock column).
* `src/models/orders.go`    — the `Order` and `OrderItem` rows.
* `src/routes/routes.go`    — `createIndividualOrder`, `createLegalOrder`
  and `updateOrder` handlers, including the go-playground/validator
  semantics of the `validate:"..."` tags on the request structs.

Modelling conventions:
* Monetary values (`float64` in Go) are modelled as rationals.  The only
  arithmetic ever performed on them by the embedded handlers is the
  accumulation of `calculatedPrice`, a value that the code computes and
  then discards (the reconciliation check is commented out in the source),
  so the float/rational gap cannot affect any control flow or any stored
  value.
* The product stock column is an SQLite `integer` column (GORM maps the Go
  `uint` field to a plain signed integer column and the decrement is the
  unconstrained SQL expression `quantity - ?`), so stock is modelled as
  `Int`: the column itself admits negative values.
* The database is a record of tables; a GORM transaction is modelled by
  value-threading a copy of the state, `Rollback` by returning the
  original state, `Commit` by adopting the transaction state.
* Fallible storage operations (the `if err := ...` checks on inserts, the
  stock `UPDATE`s and the commit) are driven by an explicit fault
  parameter: `Fault.none` is the fault-free run, the other constructors
  make exactly one of the checked storage operations report an error, which
  is what the corresponding `err != nil` branch of the Go code handles.
* Auto-increment primary keys are modelled with explicit `next...Id`
  counters.
* `CreatedAt`/`UpdatedAt` timestamps and the response-view composition are
  wall-clock / serialization plumbing and are not modelled; results are
  abstracted to the handler outcome tags.
-/

namespace Weldmart

/-- models.Product (src/models/product.go).  The stock column
(`Quantity uint` in Go) is stored in an SQLite integer column and is
mutated by the raw SQL `quantity - ?`, so it is modelled as `Int`. -/
structure Product where
  id : Nat
  name : String
  rating : Rat
  quantity : Int
  description : String
  price : Rat
  info : String
  feature : String
  guarantee : String
  discount : String
  categoryId : Nat
  bottomCategoryId : Nat
  brandId : Nat
deriving Repr, DecidableEq

/-- models.Order (src/models/orders.go): the order header row.  The
`OrderItems` association is stored in its own table (see `DB.orderItems`),
keyed by `orderId`, exactly as GORM persists it. -/
structure Order where
  id : Nat
  price : Rat
  bonus : Rat
  userId : Nat
  orderType : String
  status : String
  service : String
  phone : String
  name : String
  organization : String
  inn : String
  comment : String
deriving Repr, DecidableEq

/-- models.OrderItem (src/models/orders.go): one line of an order. -/
structure OrderItem where
  id : Nat
  orderId : Nat
  productId : Nat
  quantity : Int
deriving Repr, DecidableEq

/-- The persistent state: the SQLite tables touched by the order
subsystem, plus auto-increment counters for the two primary keys the
handlers obtain from inserts.  Users are only ever looked up by primary
key (`First(&checkUser, userID)`), so only their ids are modelled. -/
structure DB where
  users : List Nat
  products : List Product
  orders : List Order
  orderItems : List OrderItem
  nextOrderId : Nat
  nextOrderItemId : Nat
deriving Repr, DecidableEq

/-- One requested line of a placement request body
(`order_items` element in routes.go:2149-2152 / 2320-2323). -/
structure OrderItemRequest where
  productId : Nat
  quantity : Int
deriving Repr, DecidableEq

/-- IndividualOrderRequest (routes.go:2140-2153).  `orderItems = none`
models a JSON body whose `order_items` is absent or null (a nil Go slice);
`some l` models a present array, possibly empty. -/
structure IndividualOrderRequest where
  price : Rat
  bonus : Rat
  userId : Nat
  status : String
  service : String
  phone : String
  name : String
  comment : String
  orderItems : Option (List OrderItemRequest)
deriving Repr, DecidableEq

/-- LegalOrderRequest (routes.go:2311-2324). -/
structure LegalOrderRequest where
  price : Rat
  bonus : Rat
  userId : Nat
  status : String
  service : String
  organization : String
  inn : String
  comment : String
  orderItems : Option (List OrderItemRequest)
deriving Repr, DecidableEq

/-- UpdateOrderRequest (routes.go:2483-2493).  A JSON body without a field
parses to the Go zero value, so an absent `id` is `0` here. -/
structure UpdateOrderRequest where
  id : Nat
  price : Rat
  bonus : Rat
  status : String
  phone : String
  name : String
  organization : String
  inn : String
  comment : String
deriving Repr, DecidableEq

/-- Outcome of an order handler, abstracting the HTTP status / JSON body
pairs the Go code returns on each branch. -/
inductive OrderResult where
  | created (orderId : Nat)
  | validationFailed
  | createOrderFailed
  | productNotFound (productId : Nat)
  | insufficientStock (productId : Nat)
  | createItemsFailed
  | updateQuantityFailed
  | commitFailed
  | userAssocFailed
  | loadDetailsFailed
  | orderNotFound
  | saveFailed
  | updated
deriving Repr, DecidableEq

/-- Fault injection for the checked storage operations of a placement:
each constructor makes exactly the corresponding `if err := ...` check in
the Go handler observe an error.  `Fault.none` is the fault-free run. -/
inductive Fault where
  | none
  | orderInsert
  | itemsInsert
  | decrementAt (i : Nat)
  | commit
deriving Repr, DecidableEq

/-- Index of the stock `UPDATE` that the injected fault makes fail, if
any. -/
def Fault.decrementFailIdx : Fault → Option Nat
  | .decrementAt i => some i
  | _ => .none

/-! ## go-playground/validator semantics

`validate.Struct` (validator v10) semantics of the tags used by the order
request structs:
* `required` on a number fails exactly on the zero value;
* `required` on a string fails exactly on the empty string;
* `required` on a slice fails exactly on a nil slice (an empty non-nil
  slice passes);
* `gte=k` is a plain `≥ k` comparison;
* `dive` applies the element struct's own tags to every element.
-/

/-- Validation of one `order_items` element:
`product_id` is `required` (nonzero uint), `quantity` is
`required,gte=1` (nonzero and ≥ 1). -/
def validItemReq (i : OrderItemRequest) : Bool :=
  decide (i.productId ≠ 0) && decide (i.quantity ≠ 0) && decide (1 ≤ i.quantity)

/-- validate.Struct on an IndividualOrderRequest (routes.go:2141-2152):
price `required,gte=0`, bonus `gte=0`, status/service/phone/name
`required`, order_items `required,dive`. -/
def validIndividualRequest (r : IndividualOrderRequest) : Bool :=
  decide (r.price ≠ 0) && decide (0 ≤ r.price) && decide (0 ≤ r.bonus) &&
  decide (r.status ≠ "") && decide (r.service ≠ "") &&
  decide (r.phone ≠ "") && decide (r.name ≠ "") &&
  r.orderItems.isSome && (r.orderItems.getD []).all validItemReq

/-- validate.Struct on a LegalOrderRequest (routes.go:2312-2323):
like the individual one, with organization and inn `required` in place of
phone and name. -/
def validLegalRequest (r : LegalOrderRequest) : Bool :=
  decide (r.price ≠ 0) && decide (0 ≤ r.price) && decide (0 ≤ r.bonus) &&
  decide (r.status ≠ "") && decide (r.service ≠ "") &&
  decide (r.organization ≠ "") && decide (r.inn ≠ "") &&
  r.orderItems.isSome && (r.orderItems.getD []).all validItemReq

/-- validate.Struct on an UpdateOrderRequest (routes.go:2484-2486):
id `required`, price and bonus `gte=0`. -/
def validUpdateRequest (r : UpdateOrderRequest) : Bool :=
  decide (r.id ≠ 0) && decide (0 ≤ r.price) && decide (0 ≤ r.bonus)

/-! ## Order placement (createIndividualOrder / createLegalOrder) -/

/-- The transaction-scoped `tx.First(&product, id)` lookup: first row of
the products table with the given primary key. -/
def findProduct (products : List Product) (pid : Nat) : Option Product :=
  products.find? (fun p => p.id == pid)

/-- The OrderItem row built for one requested line
(routes.go:2214-2218): GORM fills the id on insert, so it is 0 here. -/
def toOrderItem (orderId : Nat) (i : OrderItemRequest) : OrderItem :=
  { id := 0, orderId := orderId, productId := i.productId,
    quantity := i.quantity }

/-- The validation loop of the placement handlers (routes.go:2196-2220):
for each requested line in caller order, fetch the product inside the
transaction (any fetch error is reported as product-not-found), reject if
the line's quantity exceeds the product's stock as currently stored —
note that no decrement has been applied yet at this point, the decrement
loop runs only after every line has been checked — then accumulate the
OrderItem row and the computed total `sum(price * quantity)`. -/
def validateItems (products : List Product) (orderId : Nat) :
    List OrderItemRequest → List OrderItem → Rat →
    Except OrderResult (List OrderItem × Rat)
  | [], acc, total => .ok (acc, total)
  | i :: rest, acc, total =>
    match findProduct products i.productId with
    | .none => .error (.productNotFound i.productId)
    | some product =>
      if product.quantity < i.quantity then
        .error (.insufficientStock i.productId)
      else
        validateItems products orderId rest (acc ++ [toOrderItem orderId i])
          (total + product.price * (i.quantity : Rat))

/-- GORM assigns consecutive primary keys to the rows of a bulk
`tx.Create(&orderItems)`. -/
def assignItemIds (startId : Nat) : List OrderItem → List OrderItem
  | [] => []
  | it :: rest => { it with id := startId } :: assignItemIds (startId + 1) rest

/-- The SQL `UPDATE products SET quantity = quantity - q WHERE id = pid`
issued by the decrement loop (routes.go:2239-2241): every row matching the
id has the amount subtracted, unconditionally. -/
def decrementProduct (products : List Product) (pid : Nat) (q : Int) :
    List Product :=
  products.map (fun p =>
    if p.id == pid then { p with quantity := p.quantity - q } else p)

/-- The decrement loop (routes.go:2238-2247), with the injected fault
making the `idx`-th UPDATE fail: `none` is the rollback outcome. -/
def decrementGo : List Product → List OrderItem → Option Nat → Nat →
    Option (List Product)
  | products, [], _, _ => some products
  | products, it :: rest, failIdx, idx =>
    if failIdx = some idx then .none
    else
      decrementGo (decrementProduct products it.productId it.quantity)
        rest failIdx (idx + 1)

/-- Fault-free cumulative effect of the decrement loop. -/
def applyDecrements (products : List Product) (items : List OrderItem) :
    List Product :=
  items.foldl (fun ps it => decrementProduct ps it.productId it.quantity)
    products

/-- Combined demand that a request's lines place on one product id:
the sum of the quantities of the lines referencing it. -/
def totalDemand : List OrderItemRequest → Nat → Int
  | [], _ => 0
  | i :: rest, pid =>
    (if i.productId = pid then i.quantity else 0) + totalDemand rest pid

/-- Combined demand of already-built OrderItem rows on one product id. -/
def itemsDemand : List OrderItem → Nat → Int
  | [], _ => 0
  | it :: rest, pid =>
    (if it.productId = pid then it.quantity else 0) + itemsDemand rest pid

/-- The shared transactional body of createIndividualOrder
(routes.go:2188-2307) and createLegalOrder (routes.go:2359-2478); the two
Go handlers differ only in the request struct, its validation and the
header they build, their transaction code is line-for-line identical.

Steps, mirroring the source: begin a transaction from the committed
state; insert the header row obtaining its id; run the validation loop;
bulk-insert the OrderItem rows (GORM rejects an empty slice with
ErrEmptySlice); run the decrement loop; commit; then, outside the
transaction, re-read the user (`Preload("Orders").First`) and the full
order for the response view — failures there happen after the commit and
leave the committed state in place. -/
def runPlacement (db : DB) (header : Order) (userId : Nat)
    (items : List OrderItemRequest) (fault : Fault) : DB × OrderResult :=
  if fault = .orderInsert then (db, .createOrderFailed)
  else
    let orderId := db.nextOrderId
    let tx1 : DB :=
      { db with orders := db.orders ++ [{ header with id := orderId }],
                nextOrderId := orderId + 1 }
    match validateItems tx1.products orderId items [] 0 with
    | .error e => (db, e)
    | .ok (orderItems, _calculatedPrice) =>
      if orderItems = [] ∨ fault = .itemsInsert then (db, .createItemsFailed)
      else
        let tx2 : DB :=
          { tx1 with
              orderItems :=
                tx1.orderItems ++ assignItemIds tx1.nextOrderItemId orderItems,
              nextOrderItemId := tx1.nextOrderItemId + orderItems.length }
        match decrementGo tx2.products orderItems fault.decrementFailIdx 0 with
        | .none => (db, .updateQuantityFailed)
        | some products2 =>
          if fault = .commit then (db, .commitFailed)
          else
            let db2 : DB := { tx2 with products := products2 }
            if userId ∈ db2.users then
              match db2.orders.find? (fun o => o.id == orderId) with
              | .none => (db2, .loadDetailsFailed)
              | some _ => (db2, .created orderId)
            else (db2, .userAssocFailed)

/-- The order header built by createIndividualOrder (routes.go:2176-2186);
the id is filled in by the insert. -/
def individualOrderHeader (r : IndividualOrderRequest) : Order :=
  { id := 0, price := r.price, bonus := r.bonus, userId := r.userId,
    orderType := "individual", status := r.status, service := r.service,
    phone := r.phone, name := r.name, organization := "", inn := "",
    comment := r.comment }

/-- The order header built by createLegalOrder (routes.go:2347-2357). -/
def legalOrderHeader (r : LegalOrderRequest) : Order :=
  { id := 0, price := r.price, bonus := r.bonus, userId := r.userId,
    orderType := "legal", status := r.status, service := r.service,
    phone := "", name := "", organization := r.organization,
    inn := r.inn, comment := r.comment }

/-- createIndividualOrder (routes.go:2139-2308): parse (assumed
well-typed), validate, then run the transactional placement body. -/
def createIndividualOrder (db : DB) (r : IndividualOrderRequest)
    (fault : Fault) : DB × OrderResult :=
  if validIndividualRequest r then
    runPlacement db (individualOrderHeader r) r.userId
      (r.orderItems.getD []) fault
  else (db, .validationFailed)

/-- createLegalOrder (routes.go:2310-2479). -/
def createLegalOrder (db : DB) (r : LegalOrderRequest)
    (fault : Fault) : DB × OrderResult :=
  if validLegalRequest r then
    runPlacement db (legalOrderHeader r) r.userId
      (r.orderItems.getD []) fault
  else (db, .validationFailed)

/-! ## Order mutation (updateOrder) -/

/-- The kind-specific half of the field merge of updateOrder
(routes.go:2519-2537): individual orders accept phone/name edits, legal
orders organization/inn/comment edits, each applied only when the supplied
value is non-empty. -/
def updateKindFields (order : Order) (r : UpdateOrderRequest) : Order :=
  if order.orderType = "individual" then
    let oa := if r.phone ≠ "" then { order with phone := r.phone } else order
    if r.name ≠ "" then { oa with name := r.name } else oa
  else if order.orderType = "legal" then
    let oa :=
      if r.organization ≠ "" then { order with organization := r.organization }
      else order
    let ob := if r.inn ≠ "" then { oa with inn := r.inn } else oa
    if r.comment ≠ "" then { ob with comment := r.comment } else ob
  else order

/-- The common half of the field merge of updateOrder
(routes.go:2539-2548): price/bonus/status, each overwritten only when the
supplied value is nonzero / non-empty. -/
def updateCommonFields (order : Order) (r : UpdateOrderRequest) : Order :=
  let o2 := if 0 < r.price then { order with price := r.price } else order
  let o3 := if 0 < r.bonus then { o2 with bonus := r.bonus } else o2
  if r.status ≠ "" then { o3 with status := r.status } else o3

/-- The full field-merge step of updateOrder (routes.go:2519-2548): kind
specific fields first, then the common fields. -/
def updateOrderFields (order : Order) (r : UpdateOrderRequest) : Order :=
  updateCommonFields (updateKindFields order r) r

/-- updateOrder (routes.go:2481-2611).  The handler is mounted at
`PUT /orders/:id` but never reads the `:id` path parameter: the order to
mutate is identified solely by the `id` field of the request body.
`tx.Save(&order)` rewrites the header row by primary key; the preloaded
OrderItems association rows already exist under their own primary keys,
so the save leaves the line-item and product tables untouched.
`failSave`/`failCommit` inject storage errors into the two checked
operations, which roll back. -/
def updateOrder (db : DB) (pathId : String) (r : UpdateOrderRequest)
    (failSave failCommit : Bool) : DB × OrderResult :=
  if validUpdateRequest r then
    match db.orders.find? (fun o => o.id == r.id) with
    | .none => (db, .orderNotFound)
    | some order =>
      let newOrder := updateOrderFields order r
      if failSave then (db, .saveFailed)
      else if failCommit then (db, .commitFailed)
      else
        let db2 : DB :=
          { db with orders :=
              db.orders.map (fun o => if o.id == r.id then newOrder else o) }
        match db2.orders.find? (fun o => o.id == r.id) with
        | .none => (db2, .loadDetailsFailed)
        | some _ => (db2, .updated)
  else (db, .validationFailed)

/-- Outcomes that the placement handlers produce by a rollback inside the
transaction: the header insert, a product lookup, a stock check, the
line-item insert or a stock UPDATE reported failure. -/
def OrderResult.isTxFailure : OrderResult → Bool
  | .createOrderFailed => true
  | .productNotFound _ => true
  | .insufficientStock _ => true
  | .createItemsFailed => true
  | .updateQuantityFailed => true
  | _ => false

/-- The outcome of `runPlacement`, computed without the header: the
handler's control flow never inspects any header field (the header row is
only written and later re-read by primary key), so the outcome depends
only on the state, the caller id, the lines and the injected fault.
`runPlacement_snd` proves this agreement. -/
def placementOutcome (db : DB) (userId : Nat)
    (items : List OrderItemRequest) (fault : Fault) : OrderResult :=
  if fault = .orderInsert then .createOrderFailed
  else
    match validateItems db.products db.nextOrderId items [] 0 with
    | .error e => e
    | .ok (orderItems, _calculatedPrice) =>
      if orderItems = [] ∨ fault = .itemsInsert then .createItemsFailed
      else
        match decrementGo db.products orderItems fault.decrementFailIdx 0 with
        | .none => .updateQuantityFailed
        | some _ =>
          if fault = .commit then .commitFailed
          else if userId ∈ db.users then .created db.nextOrderId
          else .userAssocFailed

/-! ## Concrete fixtures for witnesses and counterexamples -/

/-- Sample product row with the given id, stock and price. -/
def sampleProduct (id : Nat) (qty : Int) (price : Rat) : Product :=
  { id := id, name := "welder", rating := 5, quantity := qty,
    description := "d", price := price, info := "i", feature := "f",
    guarantee := "", discount := "", categoryId := 1, bottomCategoryId := 0,
    brandId := 1 }

/-- Sample database holding user 1 and the given product rows. -/
def sampleDB (products : List Product) : DB :=
  { users := [1], products := products, orders := [], orderItems := [],
    nextOrderId := 1, nextOrderItemId := 1 }

/-- Sample well-formed individual placement request over the given lines. -/
def sampleIndividualRequest (items : List OrderItemRequest) :
    IndividualOrderRequest :=
  { price := 20, bonus := 0, userId := 1, status := "new",
    service := "delivery", phone := "+998901234567", name := "Alice",
    comment := "", orderItems := some items }

/-- Sample well-formed legal placement request over the given lines. -/
def sampleLegalRequest (items : List OrderItemRequest) : LegalOrderRequest :=
  { price := 20, bonus := 0, userId := 1, status := "new",
    service := "pickup", organization := "OOO Weld", inn := "123456789",
    comment := "", orderItems := some items }

/-- Sample persisted order header row. -/
def sampleOrder (id : Nat) (orderType : String) : Order :=
  { id := id, price := 15, bonus := 0, userId := 1, orderType := orderType,
    status := "new", service := "delivery", phone := "+998", name := "Bob",
    organization := "", inn := "", comment := "" }

/-- Sample order-mutation request targeting the given body id. -/
def sampleUpdateRequest (id : Nat) : UpdateOrderRequest :=
  { id := id, price := 30, bonus := 0, status := "done", phone := "",
    name := "", organization := "", inn := "", comment := "" }

/-! ## Helper lemmas -/

theorem totalDemand_nonneg (items : List OrderItemRequest) (pid : Nat)
    (h : ∀ i ∈ items, 1 ≤ i.quantity) : 0 ≤ totalDemand items pid := by
  induction items with
  | nil => simp [totalDemand]
  | cons i rest ih =>
    have h1 : 1 ≤ i.quantity := h i (List.mem_cons_self i rest)
    have h2 : 0 ≤ totalDemand rest pid :=
      ih (fun j hj => h j (List.mem_cons_of_mem i hj))
    simp only [totalDemand]
    split
    · omega
    · omega

theorem le_totalDemand (items : List OrderItemRequest)
    (i : OrderItemRequest) (hi : i ∈ items)
    (h : ∀ j ∈ items, 1 ≤ j.quantity) :
    i.quantity ≤ totalDemand items i.productId := by
  induction items with
  | nil => cases hi
  | cons j rest ih =>
    have hrest : ∀ k ∈ rest, 1 ≤ k.quantity :=
      fun k hk => h k (List.mem_cons_of_mem j hk)
    rcases List.mem_cons.mp hi with heq | hmem
    · subst heq
      have h2 : 0 ≤ totalDemand rest i.productId :=
        totalDemand_nonneg rest i.productId hrest
      simp only [totalDemand]
      split
      · omega
      · next hne => simp at hne
    · have h1 : (if j.productId = i.productId then j.quantity else 0) ≥ 0 := by
        split
        · exact le_trans (by norm_num) (h j (List.mem_cons_self j rest))
        · exact le_refl 0
      have h2 := ih hmem hrest
      simp only [totalDemand]
      omega

theorem validateItems_ok (products : List Product) (oid : Nat)
    (items : List OrderItemRequest) :
    (∀ i ∈ items, ∃ p, findProduct products i.productId = some p ∧
      i.quantity ≤ p.quantity) →
    ∀ acc total, ∃ t,
      validateItems products oid items acc total =
        .ok (acc ++ items.map (toOrderItem oid), t) := by
  induction items with
  | nil => intro _ acc total; exact ⟨total, by simp [validateItems]⟩
  | cons i rest ih =>
    intro h acc total
    obtain ⟨p, hp, hq⟩ := h i (List.mem_cons_self i rest)
    have hrest : ∀ j ∈ rest, ∃ p, findProduct products j.productId = some p ∧
        j.quantity ≤ p.quantity :=
      fun j hj => h j (List.mem_cons_of_mem i hj)
    obtain ⟨t, ht⟩ := ih hrest (acc ++ [toOrderItem oid i])
      (total + p.price * (i.quantity : Rat))
    refine ⟨t, ?_⟩
    simp only [validateItems, hp, if_neg (not_lt.mpr hq), ht,
      List.map_cons, List.append_assoc, List.singleton_append]

theorem decrementGo_none (items : List OrderItem) :
    ∀ (products : List Product) (idx : Nat),
      decrementGo products items .none idx =
        some (applyDecrements products items) := by
  induction items with
  | nil => intro products idx; simp [decrementGo, applyDecrements]
  | cons it rest ih =>
    intro products idx
    simp only [decrementGo, applyDecrements, List.foldl_cons]
    exact ih (decrementProduct products it.productId it.quantity) (idx + 1)

theorem applyDecrements_map (items : List OrderItem) :
    ∀ products : List Product,
      applyDecrements products items =
        products.map
          (fun p => { p with quantity := p.quantity - itemsDemand items p.id }) := by
  induction items with
  | nil =>
    intro products
    simp only [applyDecrements, List.foldl_nil, itemsDemand]
    have : (fun p : Product => { p with quantity := p.quantity - 0 }) =
        fun p => p := by
      funext p; simp
    rw [this, List.map_id']
  | cons it rest ih =>
    intro products
    simp only [applyDecrements, List.foldl_cons] at *
    rw [ih (decrementProduct products it.productId it.quantity)]
    simp only [decrementProduct, List.map_map]
    apply List.map_congr_left
    intro p _
    simp only [Function.comp_apply, itemsDemand]
    by_cases hid : p.id = it.productId
    · have hb : (p.id == it.productId) = true := by simp [hid]
      simp only [hb, if_true, if_pos hid.symm, Product.mk.injEq, and_true,
        true_and]
      omega
    · have hb : (p.id == it.productId) = false := by simp [hid]
      have hne : ¬ it.productId = p.id := fun h => hid h.symm
      simp only [hb, Bool.false_eq_true, if_false, if_neg hne,
        Product.mk.injEq, and_true, true_and]
      omega

theorem assignItemIds_length (l : List OrderItem) :
    ∀ s, (assignItemIds s l).length = l.length := by
  induction l with
  | nil => intro s; simp [assignItemIds]
  | cons it rest ih => intro s; simp [assignItemIds, ih]

theorem assignItemIds_orderId (l : List OrderItem) :
    ∀ s it, it ∈ assignItemIds s l → ∃ it0 ∈ l, it.orderId = it0.orderId ∧
      it.productId = it0.productId ∧ it.quantity = it0.quantity := by
  induction l with
  | nil => intro s it h; cases h
  | cons j rest ih =>
    intro s it h
    rcases List.mem_cons.mp h with heq | hmem
    · exact ⟨j, List.mem_cons_self j rest, by simp [heq]⟩
    · obtain ⟨it0, h0, hs⟩ := ih (s + 1) it hmem
      exact ⟨it0, List.mem_cons_of_mem j h0, hs⟩

theorem itemsDemand_assignItemIds (l : List OrderItem) :
    ∀ s pid, itemsDemand (assignItemIds s l) pid = itemsDemand l pid := by
  induction l with
  | nil => intro s pid; simp [assignItemIds]
  | cons it rest ih =>
    intro s pid
    simp only [assignItemIds, itemsDemand, ih (s + 1) pid]

theorem itemsDemand_map_toOrderItem (items : List OrderItemRequest)
    (oid pid : Nat) :
    itemsDemand (items.map (toOrderItem oid)) pid = totalDemand items pid := by
  induction items with
  | nil => simp [itemsDemand, totalDemand]
  | cons i rest ih =>
    simp only [List.map_cons, itemsDemand, totalDemand, toOrderItem, ih]

theorem validateItems_error (products : List Product) (oid : Nat) :
    ∀ (items : List OrderItemRequest) (acc : List OrderItem) (total : Rat)
      (e : OrderResult),
      validateItems products oid items acc total = .error e →
      (∃ pid, e = .productNotFound pid) ∨ ∃ pid, e = .insufficientStock pid := by
  intro items
  induction items with
  | nil => intro acc total e he; simp [validateItems] at he
  | cons i rest ih =>
    intro acc total e he
    simp only [validateItems] at he
    cases hp : findProduct products i.productId with
    | none =>
      simp only [hp] at he
      exact Or.inl ⟨i.productId, by simpa using he.symm⟩
    | some p =>
      simp only [hp] at he
      by_cases hlt : p.quantity < i.quantity
      · rw [if_pos hlt] at he
        exact Or.inr ⟨i.productId, by simpa using he.symm⟩
      · rw [if_neg hlt] at he
        exact ih _ _ e he

theorem runPlacement_snd (db : DB) (h : Order) (uid : Nat)
    (items : List OrderItemRequest) (f : Fault) :
    (runPlacement db h uid items f).2 = placementOutcome db uid items f := by
  by_cases hf1 : f = .orderInsert
  · subst hf1; simp [runPlacement, placementOutcome]
  · cases hv : validateItems db.products db.nextOrderId items [] 0 with
    | error e => simp [runPlacement, placementOutcome, hf1, hv]
    | ok pr =>
      obtain ⟨ois, cp⟩ := pr
      by_cases hne1 : ois = []
      · simp [runPlacement, placementOutcome, hf1, hv, hne1]
      · by_cases hf2 : f = .itemsInsert
        · subst hf2; simp [runPlacement, placementOutcome, hv, hne1]
        · cases hd : decrementGo db.products ois f.decrementFailIdx 0 with
          | none =>
            simp [runPlacement, placementOutcome, hf1, hv, hne1, hf2, hd]
          | some ps2 =>
            by_cases hf3 : f = .commit
            · subst hf3
              simp [runPlacement, placementOutcome, hv, hne1, hf2, hd]
            · by_cases hu : uid ∈ db.users
              · cases hfo : db.orders.find? (fun q => q.id == db.nextOrderId) with
                | none =>
                  simp [runPlacement, placementOutcome, hf1, hv, hne1, hf2,
                    hf3, hd, hu, hfo]
                | some o =>
                  simp [runPlacement, placementOutcome, hf1, hv, hne1, hf2,
                    hf3, hd, hu, hfo]
              · simp [runPlacement, placementOutcome, hf1, hv, hne1, hf2,
                  hf3, hd, hu]

theorem runPlacement_fst_created (db : DB) (h : Order) (uid : Nat)
    (items : List OrderItemRequest) (f : Fault) (oid : Nat)
    (hres : (runPlacement db h uid items f).2 = .created oid) :
    oid = db.nextOrderId ∧
      (runPlacement db h uid items f).1.orders =
        db.orders ++ [{ h with id := db.nextOrderId }] := by
  by_cases hf1 : f = .orderInsert
  · subst hf1; simp [runPlacement] at hres
  · cases hv : validateItems db.products db.nextOrderId items [] 0 with
    | error e =>
      rcases validateItems_error db.products db.nextOrderId items [] 0 e hv
        with ⟨pid, he⟩ | ⟨pid, he⟩ <;>
        (subst he; simp [runPlacement, hf1, hv] at hres)
    | ok pr =>
      obtain ⟨ois, cp⟩ := pr
      by_cases hne1 : ois = []
      · simp [runPlacement, hf1, hv, hne1] at hres
      · by_cases hf2 : f = .itemsInsert
        · subst hf2; simp [runPlacement, hv, hne1] at hres
        · cases hd : decrementGo db.products ois f.decrementFailIdx 0 with
          | none => simp [runPlacement, hf1, hv, hne1, hf2, hd] at hres
          | some ps2 =>
            by_cases hf3 : f = .commit
            · subst hf3; simp [runPlacement, hv, hne1, hf2, hd] at hres
            · by_cases hu : uid ∈ db.users
              · cases hfo : db.orders.find? (fun q => q.id == db.nextOrderId) with
                | none =>
                  refine ⟨?_, ?_⟩
                  · simp [runPlacement, hf1, hv, hne1, hf2, hf3, hd, hu, hfo]
                      at hres
                    exact hres.symm
                  · simp [runPlacement, hf1, hv, hne1, hf2, hf3, hd, hu, hfo]
                | some o =>
                  refine ⟨?_, ?_⟩
                  · simp [runPlacement, hf1, hv, hne1, hf2, hf3, hd, hu, hfo]
                      at hres
                    exact hres.symm
                  · simp [runPlacement, hf1, hv, hne1, hf2, hf3, hd, hu, hfo]
              · simp [runPlacement, hf1, hv, hne1, hf2, hf3, hd, hu] at hres

theorem runPlacement_txFailure (db : DB) (h : Order) (uid : Nat)
    (items : List OrderItemRequest) (f : Fault)
    (hres : ((runPlacement db h uid items f).2).isTxFailure = true) :
    (runPlacement db h uid items f).1 = db := by
  by_cases hf1 : f = .orderInsert
  · subst hf1; simp [runPlacement]
  · cases hv : validateItems db.products db.nextOrderId items [] 0 with
    | error e => simp [runPlacement, hf1, hv]
    | ok pr =>
      obtain ⟨ois, cp⟩ := pr
      by_cases hne1 : ois = []
      · simp [runPlacement, hf1, hv, hne1]
      · by_cases hf2 : f = .itemsInsert
        · subst hf2; simp [runPlacement, hv, hne1]
        · cases hd : decrementGo db.products ois f.decrementFailIdx 0 with
          | none => simp [runPlacement, hf1, hv, hne1, hf2, hd]
          | some ps2 =>
            by_cases hf3 : f = .commit
            · subst hf3; simp [runPlacement, hv, hne1, hf2, hd]
            · by_cases hu : uid ∈ db.users
              · cases hfo : db.orders.find? (fun q => q.id == db.nextOrderId) with
                | none =>
                  simp [runPlacement, hf1, hv, hne1, hf2, hf3, hd, hu, hfo,
                    OrderResult.isTxFailure] at hres
                | some o =>
                  simp [runPlacement, hf1, hv, hne1, hf2, hf3, hd, hu, hfo,
                    OrderResult.isTxFailure] at hres
              · simp [runPlacement, hf1, hv, hne1, hf2, hf3, hd, hu,
                  OrderResult.isTxFailure] at hres

theorem runPlacement_commit (db : DB) (header : Order) (userId : Nat)
    (items : List OrderItemRequest)
    (hne : items ≠ [])
    (hq1 : ∀ i ∈ items, 1 ≤ i.quantity)
    (hfind : ∀ i ∈ items, ∃ p ∈ db.products, p.id = i.productId)
    (hstock : ∀ p ∈ db.products, totalDemand items p.id ≤ p.quantity) :
    runPlacement db header userId items .none =
      ({ users := db.users,
         products := db.products.map
           (fun p => { p with quantity := p.quantity - totalDemand items p.id }),
         orders := db.orders ++ [{ header with id := db.nextOrderId }],
         orderItems := db.orderItems ++
           assignItemIds db.nextOrderItemId
             (items.map (toOrderItem db.nextOrderId)),
         nextOrderId := db.nextOrderId + 1,
         nextOrderItemId := db.nextOrderItemId + items.length },
       if userId ∈ db.users then .created db.nextOrderId
       else .userAssocFailed) := by
  have hvi : ∀ i ∈ items, ∃ p, findProduct db.products i.productId = some p ∧
      i.quantity ≤ p.quantity := by
    intro i hi
    obtain ⟨p0, hp0, hid0⟩ := hfind i hi
    have hsome : (db.products.find? (fun p => p.id == i.productId)).isSome := by
      rw [List.find?_isSome]
      exact ⟨p0, hp0, by simp [hid0]⟩
    obtain ⟨p, hp⟩ := Option.isSome_iff_exists.mp hsome
    have hmem := List.mem_of_find?_eq_some hp
    have hpid : p.id = i.productId := by
      have := List.find?_some hp
      simpa using this
    refine ⟨p, hp, ?_⟩
    calc i.quantity ≤ totalDemand items i.productId :=
          le_totalDemand items i hi hq1
      _ ≤ p.quantity := by rw [← hpid]; exact hstock p hmem
  obtain ⟨t, ht⟩ := validateItems_ok db.products db.nextOrderId items hvi [] 0
  have hmapne : ¬ (items.map (toOrderItem db.nextOrderId) = []) := by
    simpa using hne
  have hdec := decrementGo_none (items.map (toOrderItem db.nextOrderId))
    db.products 0
  by_cases hu : userId ∈ db.users
  · cases hfo : db.orders.find? (fun q => q.id == db.nextOrderId) with
    | none =>
      simp [runPlacement, ht, hmapne, Fault.decrementFailIdx, hdec, hu, hfo,
        applyDecrements_map, itemsDemand_map_toOrderItem]
    | some o =>
      simp [runPlacement, ht, hmapne, Fault.decrementFailIdx, hdec, hu, hfo,
        applyDecrements_map, itemsDemand_map_toOrderItem]
  · simp [runPlacement, ht, hmapne, Fault.decrementFailIdx, hdec, hu,
      applyDecrements_map, itemsDemand_map_toOrderItem]
theorem updateKindFields_id (o : Order) (r : UpdateOrderRequest) :
    (updateKindFields o r).id = o.id := by
  simp only [updateKindFields]
  split_ifs <;> rfl

theorem updateCommonFields_id (o : Order) (r : UpdateOrderRequest) :
    (updateCommonFields o r).id = o.id := by
  simp only [updateCommonFields]
  split_ifs <;> rfl

theorem updateOrderFields_id (o : Order) (r : UpdateOrderRequest) :
    (updateOrderFields o r).id = o.id := by
  simp only [updateOrderFields, updateCommonFields_id, updateKindFields_id]

theorem valid_individual_quantities (r : IndividualOrderRequest)
    (hv : validIndividualRequest r = true) :
    ∀ i ∈ r.orderItems.getD [], 1 ≤ i.quantity := by
  intro i hi
  simp only [validIndividualRequest, Bool.and_eq_true, decide_eq_true_eq,
    List.all_eq_true] at hv
  have h := hv.2 i hi
  simp only [validItemReq, Bool.and_eq_true, decide_eq_true_eq] at h
  exact h.2

theorem valid_legal_quantities (r : LegalOrderRequest)
    (hv : validLegalRequest r = true) :
    ∀ i ∈ r.orderItems.getD [], 1 ≤ i.quantity := by
  intro i hi
  simp only [validLegalRequest, Bool.and_eq_true, decide_eq_true_eq,
    List.all_eq_true] at hv
  have h := hv.2 i hi
  simp only [validItemReq, Bool.and_eq_true, decide_eq_true_eq] at h
  exact h.2

theorem assignItemIds_map_orderId (items : List OrderItemRequest)
    (oid s : Nat) :
    ∀ it ∈ assignItemIds s (items.map (toOrderItem oid)),
      it.orderId = oid := by
  intro it hit
  obtain ⟨it0, h0, ho, _, _⟩ :=
    assignItemIds_orderId (items.map (toOrderItem oid)) s it hit
  obtain ⟨i, _, rfl⟩ := List.mem_map.mp h0
  simpa [toOrderItem] using ho

theorem updateOrder_fst (db : DB) (path : String) (r : UpdateOrderRequest)
    (fs fc : Bool) :
    (updateOrder db path r fs fc).1 = db ∨
    ∃ ord, db.orders.find? (fun q => q.id == r.id) = some ord ∧
      (updateOrder db path r fs fc).1 =
        { db with orders := db.orders.map (fun o =>
            if o.id == r.id then updateOrderFields ord r else o) } := by
  by_cases hv : validUpdateRequest r
  · cases hfo : db.orders.find? (fun q => q.id == r.id) with
    | none => left; simp [updateOrder, hv, hfo]
    | some ord =>
      by_cases hs : fs
      · left; simp [updateOrder, hv, hfo, hs]
      · by_cases hc : fc
        · left; simp [updateOrder, hv, hfo, hs, hc]
        · right
          refine ⟨ord, rfl, ?_⟩
          simp [updateOrder, hv, hfo, hs, hc]
          split <;> rfl
  · left; simp [updateOrder, hv]

/-! ## Claims -/

/-- Claim C1: every placement request (individual or legal) that fails
inside the transaction — an unresolvable product id, a line quantity
exceeding the product's current stock, or a failing insert/update — is
rolled back completely: the resulting state equals the original one, so
no order header, no line and no stock change survives. -/
theorem claim_C1 (db : DB) (r : IndividualOrderRequest)
    (rl : LegalOrderRequest) (fault : Fault) :
    ((createIndividualOrder db r fault).2.isTxFailure = true →
      (createIndividualOrder db r fault).1 = db) ∧
    ((createLegalOrder db rl fault).2.isTxFailure = true →
      (createLegalOrder db rl fault).1 = db) := by
  constructor
  · intro h1
    by_cases hv : validIndividualRequest r
    · simp only [createIndividualOrder, if_pos hv] at h1 ⊢
      exact runPlacement_txFailure _ _ _ _ _ h1
    · simp [createIndividualOrder, hv, OrderResult.isTxFailure] at h1
  · intro h1
    by_cases hv : validLegalRequest rl
    · simp only [createLegalOrder, if_pos hv] at h1 ⊢
      exact runPlacement_txFailure _ _ _ _ _ h1
    · simp [createLegalOrder, hv, OrderResult.isTxFailure] at h1

/-- Witness for C1: a request referencing the absent product 7 fails
inside the transaction and leaves the database untouched, for both
placement kinds. -/
theorem claim_C1_witness :
    (createIndividualOrder (sampleDB []) (sampleIndividualRequest [⟨7, 1⟩])
      Fault.none).1 = sampleDB [] ∧
    (createLegalOrder (sampleDB []) (sampleLegalRequest [⟨7, 1⟩])
      Fault.none).1 = sampleDB [] :=
  ⟨(claim_C1 (sampleDB []) (sampleIndividualRequest [⟨7, 1⟩])
      (sampleLegalRequest [⟨7, 1⟩]) Fault.none).1 (by decide),
   (claim_C1 (sampleDB []) (sampleIndividualRequest [⟨7, 1⟩])
      (sampleLegalRequest [⟨7, 1⟩]) Fault.none).2 (by decide)⟩

/-- Claim C3 fails on the code: a single placement whose two lines both
reference product 1 (stock 1, one unit each) is accepted — each line is
checked against the stored stock before any decrement runs — and the two
decrements drive the stock to -1.  The spec's invariant that stock never
goes negative is violated. -/
theorem claim_C3 :
    (createIndividualOrder (sampleDB [sampleProduct 1 1 10])
        (sampleIndividualRequest [⟨1, 1⟩, ⟨1, 1⟩]) Fault.none).2 =
      .created 1 ∧
    (createIndividualOrder (sampleDB [sampleProduct 1 1 10])
        (sampleIndividualRequest [⟨1, 1⟩, ⟨1, 1⟩]) Fault.none).1.products.map
        Product.quantity = [-1] := by decide

/-- Claim C4 fails on the code: a request referencing product 3 (stock 2)
in two lines of 2 units each — combined demand 4 > stock 2 — is accepted
with `created`, not rejected with `insufficientStock`, because the
decrement loop runs only after every line has been validated against the
untouched stock value; the stock ends at -2. -/
theorem claim_C4 :
    (createIndividualOrder (sampleDB [sampleProduct 3 2 5])
        (sampleIndividualRequest [⟨3, 2⟩, ⟨3, 2⟩]) Fault.none).2 =
      .created 1 ∧
    (createIndividualOrder (sampleDB [sampleProduct 3 2 5])
        (sampleIndividualRequest [⟨3, 2⟩, ⟨3, 2⟩]) Fault.none).2 ≠
      .insufficientStock 3 ∧
    (createIndividualOrder (sampleDB [sampleProduct 3 2 5])
        (sampleIndividualRequest [⟨3, 2⟩, ⟨3, 2⟩]) Fault.none).1.products.map
        Product.quantity = [-2] := by decide

/-- Claim C7 as stated is false: the individual header validation carries
`validate:"required,gte=0"` on price, and `required` rejects the zero
value, so a request with price = 0 and every other field valid is
rejected with a validation error. -/
theorem claim_C7_counterexample :
    validIndividualRequest
      { sampleIndividualRequest [⟨1, 1⟩] with price := 0 } = false ∧
    createIndividualOrder (sampleDB [sampleProduct 1 5 10])
        { sampleIndividualRequest [⟨1, 1⟩] with price := 0 } Fault.none =
      (sampleDB [sampleProduct 1 5 10], .validationFailed) := by decide

/-- Claim C7, amended: a zero price always fails the step-1 validation
(nothing is persisted), and a strictly positive price together with the
other required header fields and valid lines passes it. -/
theorem claim_C7 (db : DB) (r : IndividualOrderRequest) (fault : Fault) :
    (r.price = 0 → createIndividualOrder db r fault = (db, .validationFailed)) ∧
    (0 < r.price → 0 ≤ r.bonus → r.status ≠ "" → r.service ≠ "" →
      r.phone ≠ "" → r.name ≠ "" →
      (∃ l, r.orderItems = some l ∧ l.all validItemReq = true) →
      validIndividualRequest r = true) := by
  constructor
  · intro hp
    have hv : validIndividualRequest r = false := by
      simp [validIndividualRequest, hp]
    simp [createIndividualOrder, hv]
  · intro h1 h2 h3 h4 h5 h6 hex
    obtain ⟨l, hl, hall⟩ := hex
    simp [validIndividualRequest, h1.ne', h1.le, h2, h3, h4, h5, h6, hl, hall]

/-- Witness for C7: the price-0 rejection and the acceptance of the same
request with price 20, at concrete inputs. -/
theorem claim_C7_witness :
    createIndividualOrder (sampleDB [])
        { sampleIndividualRequest [⟨1, 1⟩] with price := 0 } Fault.none =
      (sampleDB [], .validationFailed) ∧
    validIndividualRequest (sampleIndividualRequest [⟨1, 1⟩]) = true :=
  ⟨(claim_C7 (sampleDB []) { sampleIndividualRequest [⟨1, 1⟩] with price := 0 }
      Fault.none).1 (by decide),
   (claim_C7 (sampleDB []) (sampleIndividualRequest [⟨1, 1⟩]) Fault.none).2
      (by decide) (by decide) (by decide) (by decide) (by decide) (by decide)
      ⟨[⟨1, 1⟩], rfl, by decide⟩⟩

/-- Claim C8: updateOrder never touches the line-item rows or the product
stock — on every control path only the order-header table can change. -/
theorem claim_C8 (db : DB) (pathId : String) (r : UpdateOrderRequest)
    (failSave failCommit : Bool) :
    (updateOrder db pathId r failSave failCommit).1.products = db.products ∧
    (updateOrder db pathId r failSave failCommit).1.orderItems =
      db.orderItems := by
  by_cases hv : validUpdateRequest r
  · cases hfo : db.orders.find? (fun q => q.id == r.id) with
    | none => simp [updateOrder, hv, hfo]
    | some ord =>
      by_cases hs : failSave
      · simp [updateOrder, hv, hfo, hs]
      · by_cases hc : failCommit
        · simp [updateOrder, hv, hfo, hs, hc]
        · simp [updateOrder, hv, hfo, hs, hc]
          refine ⟨?_, ?_⟩ <;> split <;> rfl
  · simp [updateOrder, hv]

/-- Claim C5: a valid placement request (individual and legal) whose
referenced products all exist and whose per-product combined demand does
not exceed the stored stock succeeds: the response is `created`, the order
gets exactly one line per requested line, and every product's stock
decreases by exactly the combined quantity requested for it. -/
theorem claim_C5 (db : DB) (r : IndividualOrderRequest)
    (rl : LegalOrderRequest)
    (hvi : validIndividualRequest r = true)
    (hnei : r.orderItems.getD [] ≠ [])
    (hfindi : ∀ i ∈ r.orderItems.getD [], ∃ p ∈ db.products,
      p.id = i.productId)
    (hstocki : ∀ p ∈ db.products,
      totalDemand (r.orderItems.getD []) p.id ≤ p.quantity)
    (hui : r.userId ∈ db.users)
    (hvl : validLegalRequest rl = true)
    (hnel : rl.orderItems.getD [] ≠ [])
    (hfindl : ∀ i ∈ rl.orderItems.getD [], ∃ p ∈ db.products,
      p.id = i.productId)
    (hstockl : ∀ p ∈ db.products,
      totalDemand (rl.orderItems.getD []) p.id ≤ p.quantity)
    (hul : rl.userId ∈ db.users) :
    ((createIndividualOrder db r Fault.none).2 = .created db.nextOrderId ∧
     (createIndividualOrder db r Fault.none).1.orderItems.length =
       db.orderItems.length + (r.orderItems.getD []).length ∧
     (∀ it ∈ (createIndividualOrder db r Fault.none).1.orderItems.drop
        db.orderItems.length, it.orderId = db.nextOrderId) ∧
     (createIndividualOrder db r Fault.none).1.products =
       db.products.map (fun p =>
         { p with quantity :=
             p.quantity - totalDemand (r.orderItems.getD []) p.id })) ∧
    ((createLegalOrder db rl Fault.none).2 = .created db.nextOrderId ∧
     (createLegalOrder db rl Fault.none).1.orderItems.length =
       db.orderItems.length + (rl.orderItems.getD []).length ∧
     (∀ it ∈ (createLegalOrder db rl Fault.none).1.orderItems.drop
        db.orderItems.length, it.orderId = db.nextOrderId) ∧
     (createLegalOrder db rl Fault.none).1.products =
       db.products.map (fun p =>
         { p with quantity :=
             p.quantity - totalDemand (rl.orderItems.getD []) p.id })) := by
  constructor
  · have hq1 := valid_individual_quantities r hvi
    have hcom := runPlacement_commit db (individualOrderHeader r) r.userId
      (r.orderItems.getD []) hnei hq1 hfindi hstocki
    have hruns : createIndividualOrder db r Fault.none =
        runPlacement db (individualOrderHeader r) r.userId
          (r.orderItems.getD []) Fault.none := by
      simp [createIndividualOrder, hvi]
    rw [hruns, hcom]
    refine ⟨by simp [hui], ?_, ?_, rfl⟩
    · simp [assignItemIds_length]
    · intro it hit
      rw [List.drop_left] at hit
      exact assignItemIds_map_orderId _ _ _ it hit
  · have hq1 := valid_legal_quantities rl hvl
    have hcom := runPlacement_commit db (legalOrderHeader rl) rl.userId
      (rl.orderItems.getD []) hnel hq1 hfindl hstockl
    have hruns : createLegalOrder db rl Fault.none =
        runPlacement db (legalOrderHeader rl) rl.userId
          (rl.orderItems.getD []) Fault.none := by
      simp [createLegalOrder, hvl]
    rw [hruns, hcom]
    refine ⟨by simp [hul], ?_, ?_, rfl⟩
    · simp [assignItemIds_length]
    · intro it hit
      rw [List.drop_left] at hit
      exact assignItemIds_map_orderId _ _ _ it hit

/-- Witness for C5: placing 3 units of product 1 (stock 5) succeeds for
the individual kind, and 2 units for the legal kind. -/
theorem claim_C5_witness :
    (createIndividualOrder (sampleDB [sampleProduct 1 5 10])
      (sampleIndividualRequest [⟨1, 3⟩]) Fault.none).2 = .created 1 ∧
    (createLegalOrder (sampleDB [sampleProduct 1 5 10])
      (sampleLegalRequest [⟨1, 2⟩]) Fault.none).2 = .created 1 :=
  ⟨(claim_C5 (sampleDB [sampleProduct 1 5 10])
      (sampleIndividualRequest [⟨1, 3⟩]) (sampleLegalRequest [⟨1, 2⟩])
      (by decide) (by decide) (by decide) (by decide) (by decide) (by decide)
      (by decide) (by decide) (by decide) (by decide)).1.1,
   (claim_C5 (sampleDB [sampleProduct 1 5 10])
      (sampleIndividualRequest [⟨1, 3⟩]) (sampleLegalRequest [⟨1, 2⟩])
      (by decide) (by decide) (by decide) (by decide) (by decide) (by decide)
      (by decide) (by decide) (by decide) (by decide)).2.1⟩

/-- Claim C9: when the transaction commits but the post-commit re-read of
the user association fails (the requesting user id does not resolve), the
committed state persists — the order header, its lines and the stock
decrements all remain — and only the response is degraded to an error. -/
theorem claim_C9 (db : DB) (r : IndividualOrderRequest)
    (rl : LegalOrderRequest)
    (hvi : validIndividualRequest r = true)
    (hnei : r.orderItems.getD [] ≠ [])
    (hfindi : ∀ i ∈ r.orderItems.getD [], ∃ p ∈ db.products,
      p.id = i.productId)
    (hstocki : ∀ p ∈ db.products,
      totalDemand (r.orderItems.getD []) p.id ≤ p.quantity)
    (hui : r.userId ∉ db.users)
    (hvl : validLegalRequest rl = true)
    (hnel : rl.orderItems.getD [] ≠ [])
    (hfindl : ∀ i ∈ rl.orderItems.getD [], ∃ p ∈ db.products,
      p.id = i.productId)
    (hstockl : ∀ p ∈ db.products,
      totalDemand (rl.orderItems.getD []) p.id ≤ p.quantity)
    (hul : rl.userId ∉ db.users) :
    ((createIndividualOrder db r Fault.none).2 = .userAssocFailed ∧
     (createIndividualOrder db r Fault.none).1.orders =
       db.orders ++ [{ individualOrderHeader r with id := db.nextOrderId }] ∧
     (createIndividualOrder db r Fault.none).1.orderItems.length =
       db.orderItems.length + (r.orderItems.getD []).length ∧
     (createIndividualOrder db r Fault.none).1.products =
       db.products.map (fun p =>
         { p with quantity :=
             p.quantity - totalDemand (r.orderItems.getD []) p.id })) ∧
    ((createLegalOrder db rl Fault.none).2 = .userAssocFailed ∧
     (createLegalOrder db rl Fault.none).1.orders =
       db.orders ++ [{ legalOrderHeader rl with id := db.nextOrderId }] ∧
     (createLegalOrder db rl Fault.none).1.orderItems.length =
       db.orderItems.length + (rl.orderItems.getD []).length ∧
     (createLegalOrder db rl Fault.none).1.products =
       db.products.map (fun p =>
         { p with quantity :=
             p.quantity - totalDemand (rl.orderItems.getD []) p.id })) := by
  constructor
  · have hq1 := valid_individual_quantities r hvi
    have hcom := runPlacement_commit db (individualOrderHeader r) r.userId
      (r.orderItems.getD []) hnei hq1 hfindi hstocki
    have hruns : createIndividualOrder db r Fault.none =
        runPlacement db (individualOrderHeader r) r.userId
          (r.orderItems.getD []) Fault.none := by
      simp [createIndividualOrder, hvi]
    rw [hruns, hcom]
    refine ⟨by simp [hui], rfl, ?_, rfl⟩
    simp [assignItemIds_length]
  · have hq1 := valid_legal_quantities rl hvl
    have hcom := runPlacement_commit db (legalOrderHeader rl) rl.userId
      (rl.orderItems.getD []) hnel hq1 hfindl hstockl
    have hruns : createLegalOrder db rl Fault.none =
        runPlacement db (legalOrderHeader rl) rl.userId
          (rl.orderItems.getD []) Fault.none := by
      simp [createLegalOrder, hvl]
    rw [hruns, hcom]
    refine ⟨by simp [hul], rfl, ?_, rfl⟩
    simp [assignItemIds_length]

/-- Witness for C9: a placement by the unknown user 5 commits the order
and the stock decrement but reports the user-association failure. -/
theorem claim_C9_witness :
    (createIndividualOrder (sampleDB [sampleProduct 1 5 10])
      { sampleIndividualRequest [⟨1, 2⟩] with userId := 5 } Fault.none).2 =
      .userAssocFailed ∧
    (createLegalOrder (sampleDB [sampleProduct 1 5 10])
      { sampleLegalRequest [⟨1, 2⟩] with userId := 5 } Fault.none).2 =
      .userAssocFailed :=
  ⟨(claim_C9 (sampleDB [sampleProduct 1 5 10])
      { sampleIndividualRequest [⟨1, 2⟩] with userId := 5 }
      { sampleLegalRequest [⟨1, 2⟩] with userId := 5 }
      (by decide) (by decide) (by decide) (by decide) (by decide) (by decide)
      (by decide) (by decide) (by decide) (by decide)).1.1,
   (claim_C9 (sampleDB [sampleProduct 1 5 10])
      { sampleIndividualRequest [⟨1, 2⟩] with userId := 5 }
      { sampleLegalRequest [⟨1, 2⟩] with userId := 5 }
      (by decide) (by decide) (by decide) (by decide) (by decide) (by decide)
      (by decide) (by decide) (by decide) (by decide)).2.1⟩

/-- Claim C6: the price persisted on a successfully created order header
is the caller-supplied price, and the placement outcome never depends on
the supplied price (among validator-accepted prices) — in particular a
mismatch with the computed line total never causes a failure. -/
theorem claim_C6 (db : DB) (r : IndividualOrderRequest)
    (rl : LegalOrderRequest) (fault : Fault) :
    (∀ oid, (createIndividualOrder db r fault).2 = .created oid →
      ∃ o ∈ (createIndividualOrder db r fault).1.orders,
        o.id = oid ∧ o.price = r.price) ∧
    (validIndividualRequest r = true → ∀ q : Rat, q ≠ 0 → 0 ≤ q →
      (createIndividualOrder db { r with price := q } fault).2 =
        (createIndividualOrder db r fault).2) ∧
    (∀ oid, (createLegalOrder db rl fault).2 = .created oid →
      ∃ o ∈ (createLegalOrder db rl fault).1.orders,
        o.id = oid ∧ o.price = rl.price) ∧
    (validLegalRequest rl = true → ∀ q : Rat, q ≠ 0 → 0 ≤ q →
      (createLegalOrder db { rl with price := q } fault).2 =
        (createLegalOrder db rl fault).2) := by
  refine ⟨?_, ?_, ?_, ?_⟩
  · intro oid hc
    by_cases hv : validIndividualRequest r
    · simp only [createIndividualOrder, if_pos hv] at hc ⊢
      obtain ⟨hoid, hord⟩ := runPlacement_fst_created db
        (individualOrderHeader r) r.userId (r.orderItems.getD []) fault oid hc
      refine ⟨{ individualOrderHeader r with id := db.nextOrderId }, ?_, ?_, rfl⟩
      · rw [hord]
        exact List.mem_append_right _ (List.mem_singleton.mpr rfl)
      · simp [hoid]
    · simp [createIndividualOrder, hv] at hc
  · intro hv q hq0 hqle
    have hv' : validIndividualRequest { r with price := q } = true := by
      simp only [validIndividualRequest, Bool.and_eq_true,
        decide_eq_true_eq] at hv ⊢
      obtain ⟨⟨⟨⟨⟨⟨⟨⟨_, _⟩, h3⟩, h4⟩, h5⟩, h6⟩, h7⟩, h8⟩, h9⟩ := hv
      exact ⟨⟨⟨⟨⟨⟨⟨⟨hq0, hqle⟩, h3⟩, h4⟩, h5⟩, h6⟩, h7⟩, h8⟩, h9⟩
    simp only [createIndividualOrder, if_pos hv, if_pos hv']
    rw [runPlacement_snd, runPlacement_snd]
  · intro oid hc
    by_cases hv : validLegalRequest rl
    · simp only [createLegalOrder, if_pos hv] at hc ⊢
      obtain ⟨hoid, hord⟩ := runPlacement_fst_created db
        (legalOrderHeader rl) rl.userId (rl.orderItems.getD []) fault oid hc
      refine ⟨{ legalOrderHeader rl with id := db.nextOrderId }, ?_, ?_, rfl⟩
      · rw [hord]
        exact List.mem_append_right _ (List.mem_singleton.mpr rfl)
      · simp [hoid]
    · simp [createLegalOrder, hv] at hc
  · intro hv q hq0 hqle
    have hv' : validLegalRequest { rl with price := q } = true := by
      simp only [validLegalRequest, Bool.and_eq_true,
        decide_eq_true_eq] at hv ⊢
      obtain ⟨⟨⟨⟨⟨⟨⟨⟨_, _⟩, h3⟩, h4⟩, h5⟩, h6⟩, h7⟩, h8⟩, h9⟩ := hv
      exact ⟨⟨⟨⟨⟨⟨⟨⟨hq0, hqle⟩, h3⟩, h4⟩, h5⟩, h6⟩, h7⟩, h8⟩, h9⟩
    simp only [createLegalOrder, if_pos hv, if_pos hv']
    rw [runPlacement_snd, runPlacement_snd]

/-- Witness for C6: the created order for a request pricing 20 while the
line total is 2 * 10 carries price 20, and repricing the request to 7
does not change the outcome. -/
theorem claim_C6_witness :
    (∃ o ∈ (createIndividualOrder (sampleDB [sampleProduct 1 5 10])
        (sampleIndividualRequest [⟨1, 2⟩]) Fault.none).1.orders,
      o.id = 1 ∧ o.price = 20) ∧
    (createIndividualOrder (sampleDB [sampleProduct 1 5 10])
        { sampleIndividualRequest [⟨1, 2⟩] with price := 7 } Fault.none).2 =
      (createIndividualOrder (sampleDB [sampleProduct 1 5 10])
        (sampleIndividualRequest [⟨1, 2⟩]) Fault.none).2 :=
  ⟨(claim_C6 (sampleDB [sampleProduct 1 5 10])
      (sampleIndividualRequest [⟨1, 2⟩]) (sampleLegalRequest [⟨1, 2⟩])
      Fault.none).1 1 (by decide),
   (claim_C6 (sampleDB [sampleProduct 1 5 10])
      (sampleIndividualRequest [⟨1, 2⟩]) (sampleLegalRequest [⟨1, 2⟩])
      Fault.none).2.1 (by decide) 7 (by decide) (by decide)⟩

/-- Claim C10: updateOrder identifies the target order solely by the body
id — the `:id` path parameter is ignored (the result is the same for any
two path values), a body whose id is absent (zero value) fails
validation, only the order named by the body id can change, and when the
body id resolves the update applies to exactly that order. -/
theorem claim_C10 (db : DB) (pathA pathB : String) (r : UpdateOrderRequest)
    (failSave failCommit : Bool) :
    updateOrder db pathA r failSave failCommit =
      updateOrder db pathB r failSave failCommit ∧
    (r.id = 0 →
      updateOrder db pathA r failSave failCommit = (db, .validationFailed)) ∧
    (∀ o ∈ (updateOrder db pathA r failSave failCommit).1.orders,
      o.id ≠ r.id → o ∈ db.orders) ∧
    (∀ ord, db.orders.find? (fun q => q.id == r.id) = some ord →
      validUpdateRequest r = true → failSave = false → failCommit = false →
      (updateOrder db pathA r failSave failCommit).2 = .updated ∧
      (updateOrder db pathA r failSave failCommit).1.orders =
        db.orders.map (fun o => if o.id == r.id then updateOrderFields ord r
          else o)) := by
  refine ⟨rfl, ?_, ?_, ?_⟩
  · intro h0
    have hv : validUpdateRequest r = false := by
      simp [validUpdateRequest, h0]
    simp [updateOrder, hv]
  · intro o ho hne
    rcases updateOrder_fst db pathA r failSave failCommit with hfst | ⟨ord, hfo, hfst⟩
    · rw [hfst] at ho
      exact ho
    · rw [hfst] at ho
      obtain ⟨a, ha, hae⟩ := List.mem_map.mp ho
      by_cases hid : a.id = r.id
      · exfalso
        have : o = updateOrderFields ord r := by
          rw [← hae]
          simp [hid]
        apply hne
        rw [this, updateOrderFields_id]
        have := List.find?_some hfo
        simpa using this
      · have : o = a := by
          rw [← hae]
          simp [hid]
        rw [this]
        exact ha
  · intro ord hfo hv hs hc
    subst hs
    subst hc
    have hordid : ord.id = r.id := by
      have := List.find?_some hfo
      simpa using this
    have himg : updateOrderFields ord r ∈ db.orders.map
        (fun o => if o.id == r.id then updateOrderFields ord r else o) := by
      refine List.mem_map.mpr ⟨ord, List.mem_of_find?_eq_some hfo, ?_⟩
      simp [hordid]
    have hpred : ((updateOrderFields ord r).id == r.id) = true := by
      rw [updateOrderFields_id]
      simp [hordid]
    have hsome : ((db.orders.map
        (fun o => if o.id == r.id then updateOrderFields ord r else o)).find?
        (fun o => o.id == r.id)).isSome := by
      rw [List.find?_isSome]
      exact ⟨_, himg, hpred⟩
    obtain ⟨x, hx⟩ := Option.isSome_iff_exists.mp hsome
    constructor
    · simp only [updateOrder, if_pos hv, hfo, Bool.false_eq_true, if_false]
      simp only [hx]
    · simp only [updateOrder, if_pos hv, hfo, Bool.false_eq_true, if_false]
      simp only [hx]

/-- Witness for C10: updating order 1 through path id 99 updates order 1,
and a body with id 0 is rejected. -/
theorem claim_C10_witness :
    updateOrder (sampleDB []) "7" (sampleUpdateRequest 0) false false =
      updateOrder (sampleDB []) "99" (sampleUpdateRequest 0) false false ∧
    updateOrder (sampleDB []) "7" (sampleUpdateRequest 0) false false =
      (sampleDB [], .validationFailed) :=
  ⟨(claim_C10 (sampleDB []) "7" "99" (sampleUpdateRequest 0) false false).1,
   (claim_C10 (sampleDB []) "7" "99" (sampleUpdateRequest 0) false
      false).2.1 (by decide)⟩

end Weldmart
